import Mathlib

/-!
Verification of the whiteboard server actions and page logic
(actions/boardActions.ts, app/board/[roomId]/page.tsx) against the design
spec. The durable store (Prisma `whiteboard` table) is modelled as a list
of records; each server action is embedded as a pure function from its
inputs, the ambient session, the non-deterministic outcomes of the
external collaborators (id generation, database errors) and the current
store state to a result object paired with the next store state.
-/

namespace Scribble

/-- Models a JavaScript value passed as `Prisma.InputJsonValue`. A value is
either JSON-representable (abstracted by its serialization) or one on which
`JSON.stringify` throws (circular structure, BigInt, ...). -/
inductive JsInput where
  | json (s : String)
  | unserializable (tag : String)
deriving DecidableEq, Repr

/-- Whether `JSON.stringify` succeeds on the value (the try/catch in
`saveBoardState`). -/
def JsInput.serializable : JsInput → Bool
  | .json _ => true
  | .unserializable _ => false

/-- One row of the durable `whiteboard` table: `id` (primary key), `roomId`
(unique), `name`, `boardData` (JSON blob, absent until first save when the
row was made by `createBoard`), `userId` (owner). `updatedAt` is omitted:
no claim mentions it. -/
structure Whiteboard where
  id : String
  roomId : String
  name : String
  boardData : Option JsInput
  userId : String
deriving DecidableEq, Repr

/-- The durable store: the list of whiteboard rows. -/
abbrev Db := List Whiteboard

/-- Result shape of `saveBoardState`:
`{ success: boolean; error?: string; whiteboard?: unknown }`. -/
structure SaveResult where
  success : Bool
  error : Option String
  whiteboard : Option Whiteboard
deriving DecidableEq, Repr

/-- Result shape of `renameBoard` or `deleteBoard`:
`{ success: boolean; error?: string }`. -/
structure ActionResult where
  success : Bool
  error : Option String
deriving DecidableEq, Repr

/-- Result shape of `createBoard`: `{ success; error?; board?: { roomId } }`;
`board` is abstracted to the roomId it carries. -/
structure CreateResult where
  success : Bool
  error : Option String
  board : Option String
deriving DecidableEq, Repr

/-- JavaScript `String.prototype.trim`: drop leading and trailing
whitespace. Implemented structurally over the character list so that it
evaluates on concrete inputs. -/
def jsTrim (s : String) : String :=
  ⟨((s.data.dropWhile Char.isWhitespace).reverse.dropWhile
      Char.isWhitespace).reverse⟩

/-- The ambient session, abstracted to the value of the optional chain
`session?.user?.id`: `none` when there is no session, no user or no id.
The guard `if (!session?.user?.id)` also rejects the empty string, which
is falsy in JavaScript, so authentication yields a user id only for a
nonempty one. -/
def authUserId (session : Option String) : Option String :=
  match session with
  | none => none
  | some id => if id = "" then none else some id

/-- The `where: { id: boardId, userId }` filter used by the owner-scoped
`updateMany` and `deleteMany` calls. -/
def matchesOwner (boardId userId : String) (w : Whiteboard) : Bool :=
  w.id == boardId && w.userId == userId

/-- `prismadb.whiteboard.upsert({ where: { roomId }, update: { boardData },
create: { roomId, boardData, name: Untitled Whiteboard, userId: 1 } })`.
`roomId` is a unique column, so at most one row matches; `freshId` stands
for the primary key the database generates on create. Returns the saved
row and the next table state. -/
def upsertWhiteboard (roomId : String) (boardData : JsInput) (freshId : String)
    (db : Db) : Whiteboard × Db :=
  match db.find? (fun w => w.roomId == roomId) with
  | some w =>
      let w' : Whiteboard := { w with boardData := some boardData }
      (w', db.map (fun x =>
        if x.roomId == roomId then { x with boardData := some boardData } else x))
  | none =>
      let w : Whiteboard :=
        { id := freshId, roomId := roomId, name := "Untitled Whiteboard",
          boardData := some boardData, userId := "1" }
      (w, db ++ [w])

/-- `saveBoardState(roomId, boardData)` from actions/boardActions.ts.
The function never reads the session; the `session` argument records the
ambient session available to a server action, to state that precisely.
`dbFails` models the database call throwing (the outer try/catch).
The roomId guard `!roomId || typeof roomId !== string || roomId.trim() === empty`
collapses to the trimmed roomId being empty. -/
def saveBoardState (session : Option String) (roomId : String)
    (boardData : JsInput) (freshId : String) (dbFails : Bool) (db : Db) :
    SaveResult × Db :=
  if jsTrim roomId = "" then
    ({ success := false, error := some "Invalid Room ID provided.",
       whiteboard := none }, db)
  else if boardData.serializable = false then
    ({ success := false, error := some "boardData is not JSON-serializable.",
       whiteboard := none }, db)
  else if dbFails then
    ({ success := false, error := some "Failed to save whiteboard state.",
       whiteboard := none }, db)
  else
    let r := upsertWhiteboard roomId boardData freshId db
    ({ success := true, error := none, whiteboard := some r.1 }, r.2)

/-- The error codes `createBoard` distinguishes in its catch block. -/
inductive DbCreateError where
  | p2002
  | p2003
  | other
deriving DecidableEq, Repr

/-- `createBoard()` from actions/boardActions.ts. `cuid` is the outcome of
`Cuid.createId()` (`none` when it throws), `freshId` the database-generated
primary key, `dbError` the outcome of `prismadb.whiteboard.create`.
`revalidatePath` has no effect on the store and is omitted. -/
def createBoard (session : Option String) (cuid : Option String)
    (freshId : String) (dbError : Option DbCreateError) (db : Db) :
    CreateResult × Db :=
  match authUserId session with
  | none =>
      ({ success := false, error := some "User not authenticated.",
         board := none }, db)
  | some userId =>
    match cuid with
    | none =>
        ({ success := false,
           error := some "Failed to generate unique board identifier. Please try again.",
           board := none }, db)
    | some roomId =>
      match dbError with
      | some .p2002 =>
          ({ success := false,
             error := some "A board with this identifier already exists. Please try again.",
             board := none }, db)
      | some .p2003 =>
          ({ success := false,
             error := some "Invalid user reference. Please try again.",
             board := none }, db)
      | some .other =>
          ({ success := false,
             error := some "An unexpected error occurred. Please try again later.",
             board := none }, db)
      | none =>
          let w : Whiteboard :=
            { id := freshId, roomId := roomId, name := "Untitled Whiteboard",
              boardData := none, userId := userId }
          ({ success := true, error := none, board := some roomId }, db ++ [w])

/-- `renameBoard(boardId, newName)` from actions/boardActions.ts.
Order of checks follows the source: authentication, boardId validation,
name trimming and validation, then `updateMany` filtered by id AND owner.
`dbFails` models the database call throwing. When the affected count is
zero the map leaves every row unchanged, mirroring an update that matched
no row. -/
def renameBoard (session : Option String) (boardId newName : String)
    (dbFails : Bool) (db : Db) : ActionResult × Db :=
  match authUserId session with
  | none => ({ success := false, error := some "User not authenticated." }, db)
  | some userId =>
    if jsTrim boardId = "" then
      ({ success := false, error := some "Invalid Board ID provided." }, db)
    else
      let trimmedName := jsTrim newName
      if trimmedName = "" then
        ({ success := false, error := some "Board name cannot be empty." }, db)
      else if trimmedName.length > 60 then
        ({ success := false,
           error := some "Board name cannot exceed 60 characters." }, db)
      else if dbFails then
        ({ success := false,
           error := some "Failed to rename whiteboard due to a server error." }, db)
      else
        let cnt := (db.filter (matchesOwner boardId userId)).length
        let db' := db.map (fun w =>
          if matchesOwner boardId userId w then { w with name := trimmedName } else w)
        if cnt = 0 then
          ({ success := false,
             error := some "Board not found or permission denied." }, db')
        else
          ({ success := true, error := none }, db')

/-- `deleteBoard(boardId)` from actions/boardActions.ts: authentication,
boardId validation, then `deleteMany` filtered by id AND owner. -/
def deleteBoard (session : Option String) (boardId : String)
    (dbFails : Bool) (db : Db) : ActionResult × Db :=
  match authUserId session with
  | none => ({ success := false, error := some "User not authenticated." }, db)
  | some userId =>
    if jsTrim boardId = "" then
      ({ success := false, error := some "Invalid Board ID provided." }, db)
    else if dbFails then
      ({ success := false,
         error := some "Failed to delete whiteboard due to a server error." }, db)
    else
      let cnt := (db.filter (matchesOwner boardId userId)).length
      let db' := db.filter (fun w => !(matchesOwner boardId userId w))
      if cnt = 0 then
        ({ success := false,
           error := some "Board not found or permission denied." }, db')
      else
        ({ success := true, error := none }, db')

/-- Outcome of rendering app/board/[roomId]/page.tsx. -/
inductive PageResult where
  | redirectSignin
  | redirectDashboard
  | render (initialData : Option JsInput)
deriving DecidableEq, Repr

/-- `BoardPage` from app/board/[roomId]/page.tsx: redirect to /signin when
unauthenticated, fetch the row by roomId, redirect to /dashboard when it is
absent, otherwise render the whiteboard with the stored boardData. -/
def boardPage (session : Option String) (roomId : String) (db : Db) :
    PageResult :=
  match session with
  | none => .redirectSignin
  | some _ =>
    match db.find? (fun w => w.roomId == roomId) with
    | none => .redirectDashboard
    | some w => .render w.boardData

/-- Whether a page outcome proceeds with the collaborative session (renders
the room) as opposed to redirecting away. -/
def PageResult.proceedsWithSession : PageResult → Bool
  | .render _ => true
  | _ => false

/-- A field value inside a serialized canvas object
(`string | number | boolean | undefined` plus unknown extras). -/
inductive FieldValue where
  | str (s : String)
  | num (n : Int)
  | boolVal (b : Bool)
  | undef
deriving DecidableEq, Repr

/-- The `data` part of a `CanvasObjectSnapshot`: a required `id` plus an
open map of further serialized Fabric properties. -/
structure CanvasObjectSnapshotData where
  id : String
  fields : List (String × FieldValue)
deriving DecidableEq, Repr

/-- `CanvasObjectSnapshot` from components/Whiteboard.tsx: the type tag and
the serialized properties of a canvas object, captured before deletion or
modification. -/
structure CanvasObjectSnapshot where
  type : String
  data : CanvasObjectSnapshotData
deriving DecidableEq, Repr

/-- `UndoableAction` from components/Whiteboard.tsx: the discriminated union
of undoable records. ADD carries only the objectId; DELETE carries the full
previous object state; MODIFY carries the objectId and the map of changed
fields as they were before the change. -/
inductive UndoableAction where
  | add (objectId : String)
  | delete (previousObjectState : CanvasObjectSnapshot)
  | modify (objectId : String) (stateBefore : List (String × FieldValue))
deriving DecidableEq, Repr

/-- The discriminant string of an action (its `type` property). -/
def UndoableAction.tag : UndoableAction → String
  | .add _ => "ADD"
  | .delete _ => "DELETE"
  | .modify _ _ => "MODIFY"

/-! ## Helper lemmas -/

/-- A filter whose predicate holds nowhere returns the empty list. -/
theorem filter_nil_of_none {α : Type} {p : α → Bool} {l : List α}
    (h : ∀ a ∈ l, p a = false) : l.filter p = [] := by
  rw [List.filter_eq_nil_iff]
  intro a ha
  simp [h a ha]

/-- A conditional rewrite whose guard holds nowhere is the identity map. -/
theorem map_if_id {α : Type} (p : α → Bool) (f : α → α) (l : List α)
    (h : ∀ a ∈ l, p a = false) :
    l.map (fun a => if p a then f a else a) = l := by
  have hcongr : l.map (fun a => if p a then f a else a) = l.map id :=
    List.map_congr_left (fun a ha => by simp [h a ha])
  simpa using hcongr

/-- Keeping every element whose negated guard holds everywhere keeps the
whole list. -/
theorem filter_not_id {α : Type} {p : α → Bool} {l : List α}
    (h : ∀ a ∈ l, p a = false) : l.filter (fun a => !(p a)) = l := by
  rw [List.filter_eq_self]
  intro a ha
  simp [h a ha]

/-- If no element of the list satisfies the predicate, the search fails. -/
theorem find_none_of_none {α : Type} {p : α → Bool} {l : List α}
    (h : ∀ a ∈ l, p a = false) : l.find? p = none :=
  List.find?_eq_none.2 (fun a ha => by simp [h a ha])

/-- Shared lemma: renameBoard with an authenticated user, valid inputs, a
healthy database and no row matching both the id and the owner returns the
permission-denied failure and leaves the table unchanged. -/
theorem renameBoard_no_match (session : Option String)
    (uid boardId newName : String) (db : Db)
    (hauth : authUserId session = some uid)
    (hid : jsTrim boardId ≠ "")
    (hne : jsTrim newName ≠ "")
    (hlen : (jsTrim newName).length ≤ 60)
    (hnone : ∀ w ∈ db, matchesOwner boardId uid w = false) :
    renameBoard session boardId newName false db
      = ({ success := false,
           error := some "Board not found or permission denied." }, db) := by
  have hfilter : db.filter (matchesOwner boardId uid) = [] :=
    filter_nil_of_none hnone
  have hmap : db.map (fun w =>
      if matchesOwner boardId uid w then { w with name := jsTrim newName } else w)
      = db := map_if_id _ _ db hnone
  have hlen' : ¬ (jsTrim newName).length > 60 := by omega
  simp [renameBoard, hauth, hid, hne, hlen', hfilter, hmap]

/-- Shared lemma: deleteBoard with an authenticated user, a valid id, a
healthy database and no row matching both the id and the owner returns the
permission-denied failure and leaves the table unchanged. -/
theorem deleteBoard_no_match (session : Option String)
    (uid boardId : String) (db : Db)
    (hauth : authUserId session = some uid)
    (hid : jsTrim boardId ≠ "")
    (hnone : ∀ w ∈ db, matchesOwner boardId uid w = false) :
    deleteBoard session boardId false db
      = ({ success := false,
           error := some "Board not found or permission denied." }, db) := by
  have hfilter : db.filter (matchesOwner boardId uid) = [] :=
    filter_nil_of_none hnone
  have hkeep : db.filter (fun w => !(matchesOwner boardId uid w)) = db :=
    filter_not_id hnone
  simp [deleteBoard, hauth, hid, hfilter, hkeep]

/-! ## Claim theorems -/

/-- Claim C8: UndoableAction is a tagged union with exactly three variants.
ADD carries only the objectId, DELETE carries the full previous object
state, MODIFY carries the objectId with the stateBefore field map; every
value is one of the three tags, so matching on the tag at inversion is
exhaustive. -/
theorem undoableAction_three_variants_exhaustive (a : UndoableAction) :
    (a.tag = "ADD" ∧ ∃ objectId, a = .add objectId)
    ∨ (a.tag = "DELETE" ∧ ∃ prev, a = .delete prev)
    ∨ (a.tag = "MODIFY" ∧ ∃ objectId stateBefore, a = .modify objectId stateBefore) := by
  cases a with
  | add oid => exact Or.inl ⟨rfl, oid, rfl⟩
  | delete s => exact Or.inr (Or.inl ⟨rfl, s, rfl⟩)
  | modify oid st => exact Or.inr (Or.inr ⟨rfl, oid, st, rfl⟩)

/-- Claim C9: a call to createBoard, renameBoard or deleteBoard without an
authenticated session returns success false with the User not authenticated
error and performs no database mutation at all. -/
theorem unauthenticated_actions_reject_without_mutation
    (session : Option String) (cuid : Option String)
    (freshId boardId newName : String) (dbError : Option DbCreateError)
    (dbFails : Bool) (db : Db)
    (hauth : authUserId session = none) :
    createBoard session cuid freshId dbError db
      = ({ success := false, error := some "User not authenticated.",
           board := none }, db)
    ∧ renameBoard session boardId newName dbFails db
      = ({ success := false, error := some "User not authenticated." }, db)
    ∧ deleteBoard session boardId dbFails db
      = ({ success := false, error := some "User not authenticated." }, db) := by
  refine ⟨?_, ?_, ?_⟩ <;> simp [createBoard, renameBoard, deleteBoard, hauth]

/-- Claim C9 witness: concrete unauthenticated call of all three actions. -/
theorem unauthenticated_actions_reject_without_mutation_witness :
    authUserId none = none
    ∧ createBoard none none "f1" none []
        = ({ success := false, error := some "User not authenticated.",
             board := none }, [])
    ∧ renameBoard none "b1" "New name" false []
        = ({ success := false, error := some "User not authenticated." }, [])
    ∧ deleteBoard none "b1" false []
        = ({ success := false, error := some "User not authenticated." }, []) := by
  have h := unauthenticated_actions_reject_without_mutation
      none none "f1" "b1" "New name" none false [] rfl
  exact ⟨rfl, h.1, h.2.1, h.2.2⟩

/-- Claim C5: a saveBoardState call whose boardData payload is not
JSON-serializable fails with the serialization error result and attempts no
upsert, leaving the durable table unchanged. -/
theorem saveBoardState_rejects_unserializable
    (session : Option String) (roomId : String) (bd : JsInput)
    (freshId : String) (dbFails : Bool) (db : Db)
    (hroom : jsTrim roomId ≠ "") (hser : bd.serializable = false) :
    saveBoardState session roomId bd freshId dbFails db
      = ({ success := false, error := some "boardData is not JSON-serializable.",
           whiteboard := none }, db) := by
  simp [saveBoardState, hroom, hser]

/-- Claim C5 witness: concrete save of a value on which JSON.stringify
throws. -/
theorem saveBoardState_rejects_unserializable_witness :
    jsTrim "room1" ≠ ""
    ∧ (JsInput.unserializable "cyclic").serializable = false
    ∧ saveBoardState (some "alice") "room1" (JsInput.unserializable "cyclic")
        "f1" false [⟨"b1", "room1", "Board", none, "alice"⟩]
      = ({ success := false, error := some "boardData is not JSON-serializable.",
           whiteboard := none }, [⟨"b1", "room1", "Board", none, "alice"⟩]) := by
  refine ⟨by decide, rfl, ?_⟩
  exact saveBoardState_rejects_unserializable (some "alice") "room1"
    (JsInput.unserializable "cyclic") "f1" false
    [⟨"b1", "room1", "Board", none, "alice"⟩] (by decide) rfl

/-- Claim C7: saveBoardState always returns a result object (the embedding
is a total function); a result that is not a success carries an error
message, and a failing durable-store call always surfaces as success false
with an error message, never as an exception. -/
theorem saveBoardState_total_surfaces_failures
    (session : Option String) (roomId : String) (bd : JsInput)
    (freshId : String) (dbFails : Bool) (db : Db) :
    ((saveBoardState session roomId bd freshId dbFails db).1.success = true
      ∨ ((saveBoardState session roomId bd freshId dbFails db).1.success = false
          ∧ (saveBoardState session roomId bd freshId dbFails db).1.error.isSome = true))
    ∧ (dbFails = true →
        (saveBoardState session roomId bd freshId dbFails db).1.success = false
        ∧ (saveBoardState session roomId bd freshId dbFails db).1.error.isSome = true) := by
  unfold saveBoardState
  split_ifs <;> simp_all

/-- Claim C7 witness: a concrete save against a failing store returns the
surfaced failure result. -/
theorem saveBoardState_total_surfaces_failures_witness :
    ((saveBoardState (some "alice") "room1" (JsInput.json "{}") "f1" true []).1.success = true
      ∨ ((saveBoardState (some "alice") "room1" (JsInput.json "{}") "f1" true []).1.success = false
          ∧ (saveBoardState (some "alice") "room1" (JsInput.json "{}") "f1" true []).1.error.isSome = true))
    ∧ ((saveBoardState (some "alice") "room1" (JsInput.json "{}") "f1" true []).1.success = false
        ∧ (saveBoardState (some "alice") "room1" (JsInput.json "{}") "f1" true []).1.error.isSome = true) := by
  have h := saveBoardState_total_surfaces_failures
      (some "alice") "room1" (JsInput.json "{}") "f1" true []
  exact ⟨h.1, h.2 rfl⟩

/-- Claim C3 counterexample: with an authenticated session and no durable
record for the roomId, the board page redirects to the dashboard; it does
not initialize an empty store and proceed with the session. -/
theorem boardPage_missing_record_counterexample :
    boardPage (some "alice") "room1" [] = PageResult.redirectDashboard
    ∧ (boardPage (some "alice") "room1" []).proceedsWithSession = false :=
  ⟨rfl, rfl⟩

/-- Claim C3 (amended): on room join with an authenticated session, when no
durable record exists for the given roomId the page redirects the user to
the dashboard instead of entering the collaborative session. -/
theorem boardPage_missing_record_redirects
    (uid roomId : String) (db : Db)
    (hnone : ∀ w ∈ db, (w.roomId == roomId) = false) :
    boardPage (some uid) roomId db = PageResult.redirectDashboard := by
  have hfind : db.find? (fun w => w.roomId == roomId) = none :=
    find_none_of_none hnone
  simp [boardPage, hfind]

/-- Claim C1: rename and delete filter by both the record id and the owner
user id; when no record matches (wrong id or caller not the owner) the
write affects zero rows and the action returns the permission-denied
failure result instead of throwing. -/
theorem rename_delete_owner_scoped_zero_count
    (session : Option String) (uid boardId newName : String) (db : Db)
    (hauth : authUserId session = some uid)
    (hid : jsTrim boardId ≠ "")
    (hne : jsTrim newName ≠ "")
    (hlen : (jsTrim newName).length ≤ 60)
    (hnone : ∀ w ∈ db, matchesOwner boardId uid w = false) :
    renameBoard session boardId newName false db
      = ({ success := false,
           error := some "Board not found or permission denied." }, db)
    ∧ deleteBoard session boardId false db
      = ({ success := false,
           error := some "Board not found or permission denied." }, db) :=
  ⟨renameBoard_no_match session uid boardId newName db hauth hid hne hlen hnone,
   deleteBoard_no_match session uid boardId db hauth hid hnone⟩

/-- Claim C1 witness: a stored board owned by bob, renamed and deleted by
alice with a matching id: zero rows match, both actions fail, the table is
unchanged. -/
theorem rename_delete_owner_scoped_zero_count_witness :
    authUserId (some "alice") = some "alice"
    ∧ jsTrim "b1" ≠ ""
    ∧ jsTrim "New name" ≠ ""
    ∧ (jsTrim "New name").length ≤ 60
    ∧ (∀ w ∈ ([⟨"b1", "r1", "Board", none, "bob"⟩] : Db),
        matchesOwner "b1" "alice" w = false)
    ∧ renameBoard (some "alice") "b1" "New name" false
        [⟨"b1", "r1", "Board", none, "bob"⟩]
        = ({ success := false,
             error := some "Board not found or permission denied." },
           [⟨"b1", "r1", "Board", none, "bob"⟩])
    ∧ deleteBoard (some "alice") "b1" false
        [⟨"b1", "r1", "Board", none, "bob"⟩]
        = ({ success := false,
             error := some "Board not found or permission denied." },
           [⟨"b1", "r1", "Board", none, "bob"⟩]) := by
  have h := rename_delete_owner_scoped_zero_count (some "alice") "alice"
      "b1" "New name" [⟨"b1", "r1", "Board", none, "bob"⟩]
      (by decide) (by decide) (by decide) (by decide) (by decide)
  exact ⟨by decide, by decide, by decide, by decide, by decide, h.1, h.2⟩

/-- Claim C4: a rename attempt by a caller who is not the owner of the
target board returns the zero-affected-count permission-denied failure, and
the stored state after the call, names included, is identical to the state
before it. -/
theorem renameBoard_owner_mismatch_name_unchanged
    (session : Option String) (uid boardId newName : String) (db : Db)
    (w : Whiteboard)
    (hauth : authUserId session = some uid)
    (hid : jsTrim boardId ≠ "")
    (hne : jsTrim newName ≠ "")
    (hlen : (jsTrim newName).length ≤ 60)
    (hw : w ∈ db) (hwid : w.id = boardId) (hwown : w.userId ≠ uid)
    (huniq : ∀ x ∈ db, x.id = boardId → x.userId = w.userId) :
    renameBoard session boardId newName false db
      = ({ success := false,
           error := some "Board not found or permission denied." }, db)
    ∧ (renameBoard session boardId newName false db).2.map Whiteboard.name
        = db.map Whiteboard.name := by
  have hnone : ∀ x ∈ db, matchesOwner boardId uid x = false := by
    intro x hx
    by_cases hxid : x.id = boardId
    · have hxu : x.userId = w.userId := huniq x hx hxid
      simp [matchesOwner, hxid, hxu, hwown]
    · simp [matchesOwner, hxid]
  have h := renameBoard_no_match session uid boardId newName db hauth hid hne hlen hnone
  exact ⟨h, by rw [h]⟩

/-- Claim C4 witness: alice renames the board owned by bob; the call fails
with permission denied and the stored name is still the old one. -/
theorem renameBoard_owner_mismatch_name_unchanged_witness :
    authUserId (some "alice") = some "alice"
    ∧ (⟨"b1", "r1", "Old name", none, "bob"⟩ : Whiteboard)
        ∈ ([⟨"b1", "r1", "Old name", none, "bob"⟩] : Db)
    ∧ ("bob" : String) ≠ "alice"
    ∧ renameBoard (some "alice") "b1" "Taken over" false
        [⟨"b1", "r1", "Old name", none, "bob"⟩]
        = ({ success := false,
             error := some "Board not found or permission denied." },
           [⟨"b1", "r1", "Old name", none, "bob"⟩])
    ∧ (renameBoard (some "alice") "b1" "Taken over" false
        [⟨"b1", "r1", "Old name", none, "bob"⟩]).2.map Whiteboard.name
        = ["Old name"] := by
  have h := renameBoard_owner_mismatch_name_unchanged (some "alice") "alice"
      "b1" "Taken over" [⟨"b1", "r1", "Old name", none, "bob"⟩]
      ⟨"b1", "r1", "Old name", none, "bob"⟩
      (by decide) (by decide) (by decide) (by decide)
      (by decide) rfl (by decide) (by decide)
  refine ⟨by decide, by decide, by decide, h.1, ?_⟩
  rw [h.1]
  rfl

/-- Claim C2: saveBoardState performs no authentication or ownership check;
when no durable record exists for the roomId, the record created by the
upsert has owner userId the constant string 1 and name Untitled Whiteboard
whatever the ambient session is, and two calls differing only in the
session produce the same result and the same created record. -/
theorem saveBoardState_session_independent_default_owner
    (s1 s2 : Option String) (roomId : String) (bd : JsInput)
    (freshId : String) (db : Db)
    (hroom : jsTrim roomId ≠ "") (hser : bd.serializable = true)
    (hnone : ∀ w ∈ db, (w.roomId == roomId) = false) :
    saveBoardState s1 roomId bd freshId false db
      = saveBoardState s2 roomId bd freshId false db
    ∧ (saveBoardState s1 roomId bd freshId false db).2
        = db ++ [{ id := freshId, roomId := roomId,
                   name := "Untitled Whiteboard",
                   boardData := some bd, userId := "1" }]
    ∧ (saveBoardState s1 roomId bd freshId false db).1.whiteboard
        = some { id := freshId, roomId := roomId,
                 name := "Untitled Whiteboard",
                 boardData := some bd, userId := "1" } := by
  have hfind : db.find? (fun w => w.roomId == roomId) = none :=
    find_none_of_none hnone
  refine ⟨rfl, ?_, ?_⟩ <;>
    simp [saveBoardState, upsertWhiteboard, hroom, hser, hfind]

/-- Claim C2 witness: with an empty table, a save under the session of bob
and a save with no session at all create the same record, owned by the
constant user 1. -/
theorem saveBoardState_session_independent_default_owner_witness :
    jsTrim "room1" ≠ ""
    ∧ (JsInput.json "{}").serializable = true
    ∧ saveBoardState (some "bob") "room1" (JsInput.json "{}") "f1" false []
        = saveBoardState none "room1" (JsInput.json "{}") "f1" false []
    ∧ (saveBoardState (some "bob") "room1" (JsInput.json "{}") "f1" false []).2
        = [{ id := "f1", roomId := "room1", name := "Untitled Whiteboard",
             boardData := some (JsInput.json "{}"), userId := "1" }]
    ∧ (saveBoardState (some "bob") "room1" (JsInput.json "{}") "f1" false []).1.whiteboard
        = some { id := "f1", roomId := "room1", name := "Untitled Whiteboard",
                 boardData := some (JsInput.json "{}"), userId := "1" } := by
  have h := saveBoardState_session_independent_default_owner
      (some "bob") none "room1" (JsInput.json "{}") "f1" []
      (by decide) rfl (by decide)
  exact ⟨by decide, rfl, h.1, h.2.1, h.2.2⟩

/-- Claim C6: saving to a roomId that already has a durable record updates
only the boardData field: the table becomes a pointwise rewrite of the
matching row, the (id, roomId, name, userId) projection of every row is
unchanged, and the matching row now stores the payload. -/
theorem saveBoardState_existing_updates_only_boardData
    (session : Option String) (roomId : String) (bd : JsInput)
    (freshId : String) (db : Db) (w : Whiteboard)
    (hroom : jsTrim roomId ≠ "") (hser : bd.serializable = true)
    (hw : w ∈ db) (hwr : (w.roomId == roomId) = true) :
    (saveBoardState session roomId bd freshId false db).2
      = db.map (fun x =>
          if x.roomId == roomId then { x with boardData := some bd } else x)
    ∧ ((saveBoardState session roomId bd freshId false db).2).map
        (fun x => (x.id, x.roomId, x.name, x.userId))
        = db.map (fun x => (x.id, x.roomId, x.name, x.userId))
    ∧ ∀ x ∈ (saveBoardState session roomId bd freshId false db).2,
        (x.roomId == roomId) = true → x.boardData = some bd := by
  have hne : db.find? (fun x => x.roomId == roomId) ≠ none := by
    intro hcon
    have hx := List.find?_eq_none.1 hcon w hw
    simp [hwr] at hx
  obtain ⟨v, hv⟩ := Option.ne_none_iff_exists'.1 hne
  have h2 : (saveBoardState session roomId bd freshId false db).2
      = db.map (fun x =>
          if x.roomId == roomId then { x with boardData := some bd } else x) := by
    simp [saveBoardState, upsertWhiteboard, hroom, hser, hv]
  refine ⟨h2, ?_, ?_⟩
  · rw [h2, List.map_map]
    refine List.map_congr_left (fun x hx => ?_)
    by_cases hxr : x.roomId = roomId <;> simp [hxr]
  · rw [h2]
    intro x hx hxr
    obtain ⟨y, hy, hyx⟩ := List.mem_map.1 hx
    by_cases hyr : y.roomId = roomId
    · rw [← hyx]; simp [hyr]
    · rw [← hyx] at hxr
      simp [hyr] at hxr

/-- Claim C6 witness: saving over an existing row keeps its id, roomId,
name and owner and replaces only the board data. -/
theorem saveBoardState_existing_updates_only_boardData_witness :
    jsTrim "room1" ≠ ""
    ∧ (⟨"b1", "room1", "My board", some (JsInput.json "old"), "alice"⟩ : Whiteboard)
        ∈ ([⟨"b1", "room1", "My board", some (JsInput.json "old"), "alice"⟩] : Db)
    ∧ (saveBoardState (some "bob") "room1" (JsInput.json "new") "f9" false
        [⟨"b1", "room1", "My board", some (JsInput.json "old"), "alice"⟩]).2
        = [⟨"b1", "room1", "My board", some (JsInput.json "new"), "alice"⟩]
    ∧ ((saveBoardState (some "bob") "room1" (JsInput.json "new") "f9" false
        [⟨"b1", "room1", "My board", some (JsInput.json "old"), "alice"⟩]).2).map
          (fun x => (x.id, x.roomId, x.name, x.userId))
        = [("b1", "room1", "My board", "alice")] := by
  have h := saveBoardState_existing_updates_only_boardData (some "bob") "room1"
      (JsInput.json "new") "f9"
      [⟨"b1", "room1", "My board", some (JsInput.json "old"), "alice"⟩]
      ⟨"b1", "room1", "My board", some (JsInput.json "old"), "alice"⟩
      (by decide) rfl (by decide) (by decide)
  refine ⟨by decide, by decide, ?_, ?_⟩
  · rw [h.1]; decide
  · rw [h.1]; decide

/-- Claim C10: renameBoard trims the requested name before use; a name
whose trimmed form is empty or longer than 60 characters makes the action
return success false without touching the database, and on success every
row matched by the owner-scoped filter stores exactly the trimmed name. -/
theorem renameBoard_trims_and_validates_name
    (session : Option String) (uid boardId newName : String)
    (dbFails : Bool) (db : Db)
    (hauth : authUserId session = some uid) :
    ((jsTrim newName = "" ∨ 60 < (jsTrim newName).length) →
        (renameBoard session boardId newName dbFails db).1.success = false
        ∧ (renameBoard session boardId newName dbFails db).2 = db)
    ∧ ((renameBoard session boardId newName dbFails db).1.success = true →
        ∀ x ∈ (renameBoard session boardId newName dbFails db).2,
          matchesOwner boardId uid x = true → x.name = jsTrim newName) := by
  constructor
  · intro hbad
    by_cases hid : jsTrim boardId = ""
    · simp [renameBoard, hauth, hid]
    · rcases hbad with hempty | hlong
      · simp [renameBoard, hauth, hid, hempty]
      · have hne : ¬ jsTrim newName = "" := by
          intro h
          rw [h] at hlong
          simp at hlong
        simp [renameBoard, hauth, hid, hne, hlong]
  · intro hsucc x hx hmatch
    by_cases hid : jsTrim boardId = ""
    · simp [renameBoard, hauth, hid] at hsucc
    by_cases hempty : jsTrim newName = ""
    · simp [renameBoard, hauth, hid, hempty] at hsucc
    by_cases hlong : (jsTrim newName).length > 60
    · simp [renameBoard, hauth, hid, hempty, hlong] at hsucc
    by_cases hfail : dbFails
    · simp [renameBoard, hauth, hid, hempty, hlong, hfail] at hsucc
    by_cases hcnt : (db.filter (matchesOwner boardId uid)).length = 0
    · simp [renameBoard, hauth, hid, hempty, hlong, hfail, hcnt] at hsucc
    · have hdb : (renameBoard session boardId newName dbFails db).2
          = db.map (fun w =>
              if matchesOwner boardId uid w
              then { w with name := jsTrim newName } else w) := by
        simp [renameBoard, hauth, hid, hempty, hlong, hfail, hcnt]
      rw [hdb] at hx
      obtain ⟨y, hy, hyx⟩ := List.mem_map.1 hx
      by_cases hym : matchesOwner boardId uid y = true
      · rw [← hyx]
        simp [hym]
      · rw [← hyx] at hmatch
        simp [hym] at hmatch

/-- Claim C10 witness: an over-long name is rejected without touching the
table, and a successful rename of an owned board stores the trimmed name. -/
theorem renameBoard_trims_and_validates_name_witness :
    authUserId (some "alice") = some "alice"
    ∧ (jsTrim (String.mk (List.replicate 61 'x')) = ""
        ∨ 60 < (jsTrim (String.mk (List.replicate 61 'x'))).length)
    ∧ (renameBoard (some "alice") "b1" (String.mk (List.replicate 61 'x')) false
        [⟨"b1", "r1", "Old", none, "alice"⟩]).1.success = false
    ∧ (renameBoard (some "alice") "b1" (String.mk (List.replicate 61 'x')) false
        [⟨"b1", "r1", "Old", none, "alice"⟩]).2
        = [⟨"b1", "r1", "Old", none, "alice"⟩]
    ∧ (renameBoard (some "alice") "b1" "  Fresh  " false
        [⟨"b1", "r1", "Old", none, "alice"⟩]).1.success = true
    ∧ (∀ x ∈ (renameBoard (some "alice") "b1" "  Fresh  " false
          [⟨"b1", "r1", "Old", none, "alice"⟩]).2,
        matchesOwner "b1" "alice" x = true → x.name = jsTrim "  Fresh  ") := by
  have hlong := renameBoard_trims_and_validates_name (some "alice") "alice"
      "b1" (String.mk (List.replicate 61 'x')) false
      [⟨"b1", "r1", "Old", none, "alice"⟩] (by decide)
  have hok := renameBoard_trims_and_validates_name (some "alice") "alice"
      "b1" "  Fresh  " false [⟨"b1", "r1", "Old", none, "alice"⟩] (by decide)
  have hbad : jsTrim (String.mk (List.replicate 61 'x')) = ""
      ∨ 60 < (jsTrim (String.mk (List.replicate 61 'x'))).length := by
    right; decide
  exact ⟨by decide, hbad, (hlong.1 hbad).1, (hlong.1 hbad).2,
    by decide, hok.2 (by decide)⟩

/-- Claim C3 witness for the amended statement: concrete missing room. -/
theorem boardPage_missing_record_redirects_witness :
    (∀ w ∈ ([⟨"b1", "other", "Board", none, "alice"⟩] : Db),
        (w.roomId == "room1") = false)
    ∧ boardPage (some "alice") "room1" [⟨"b1", "other", "Board", none, "alice"⟩]
        = PageResult.redirectDashboard := by
  refine ⟨by decide, ?_⟩
  exact boardPage_missing_record_redirects "alice" "room1"
    [⟨"b1", "other", "Board", none, "alice"⟩] (by decide)

end Scribble
